import Mathlib

/-
Shallow embedding of the core of the Stellar SCP node simulator
(src/Value.py, src/QuorumSet.py, src/Node.py), together with theorems
checking the specification's claims against it.

Modelling conventions:
* A Transaction is identified by its content hash, modelled as a natural
  number; every place the source reads `tx.hash` the model reads the
  number itself.
* Python's `hash(frozenset(transactions))` (the `_hash` of a Value) is
  modelled as the transaction set itself: set-equal inputs give equal
  hashes, and everywhere the source compares value hashes it relies
  exactly on this set identity.
* Python sets of hashable objects are modelled as lists together with
  the membership discipline the source uses on them; dictionaries are
  modelled as association lists.
* Simulated time (`Globals.simulation_time`, floats in the source) is
  modelled with rationals; all time literals appearing in the claims
  (1.5, 2.0, 5.0) are exactly representable floats, so the comparisons
  translate faithfully.
-/

/-- Modelled from the spec: the lifecycle state tag of a Value
(init/nominated/accepted/confirmed - informational only); the State
module itself is not among the sources. -/
inductive State where
  | init
  | nominated
  | accepted
  | confirmed
deriving DecidableEq

/-- Value.py: a Value holds a collection of transactions and a state tag;
its `_hash` is `hash(frozenset(transactions))`, modelled as the set. -/
structure Value where
  transactions : Finset ℕ
  state : State
deriving DecidableEq

/-- Value._hash = hash(frozenset(self._transactions)), modelled as the set. -/
def Value.hash (v : Value) : Finset ℕ := v.transactions

/-- Value.__eq__: `self.hash == other.hash and self.state == other.state and
set(self.transactions) == set(other.transactions)`. -/
def Value.eqPy (v w : Value) : Prop :=
  v.hash = w.hash ∧ v.state = w.state ∧ v.transactions = w.transactions

instance (v w : Value) : Decidable (Value.eqPy v w) :=
  decidable_of_iff (v.hash = w.hash ∧ v.state = w.state ∧ v.transactions = w.transactions) Iff.rfl

/-- Value.combine: union of the transactions of the inputs, collected in a
set; the resulting Value is built with the default state State.init. -/
def Value.combine (values : List Value) : Value :=
  { transactions := values.foldl (fun acc v => acc ∪ v.transactions) ∅,
    state := State.init }

/-- Node.py: a node, identified by `name`; `oid` models Python object
identity (the source deduplicates peers with `id(...)` and tests
`peer is calling_node`). -/
structure Node where
  name : String
  oid : ℕ
deriving DecidableEq

/-- An argument Python may pass to Node.__eq__: another node or a bare
name string. -/
inductive PyNodeArg where
  | nd (m : Node)
  | str (s : String)

/-- Node.__eq__(self, name) is `self.name == name`. For a string argument
this is string equality; for a Node argument, `self.name == name` falls
back (str.__eq__ returns NotImplemented) to the reflected Node.__eq__ of
the argument, which compares the two names. -/
def Node.eqPy (n : Node) : PyNodeArg → Bool
  | .str s => n.name == s
  | .nd m => n.name == m.name

/-- Node.__hash__ is `hash(self.name)`; Python's builtin string hash is
an arbitrary parameter here. -/
def Node.hashPy (pyhash : String → ℤ) (n : Node) : ℤ := pyhash n.name

/-- An element of a QuorumSet's `inner_sets` list: the source allows nodes
and arbitrarily nested lists (`_flatten` descends recursively). -/
inductive InnerTree where
  | leaf (n : Node)
  | branch (ts : List InnerTree)

mutual

/-- QuorumSet._flatten on a single element. -/
def flattenT : InnerTree → List Node
  | .leaf n => [n]
  | .branch ts => flattenL ts

/-- QuorumSet._flatten: recursively flatten a nested list into its nodes. -/
def flattenL : List InnerTree → List Node
  | [] => []
  | t :: ts => flattenT t ++ flattenL ts

end

/-- The `threshold` attribute of a QuorumSet: its numeric value plus
whether it is a Python float (the source's `minimum_quorum` branches on
`isinstance(t, float) and 0 < t <= 1`). -/
structure Threshold where
  val : ℚ
  isFloat : Bool

/-- QuorumSet.py: owning node, threshold, flat validator list, inner sets. -/
structure QuorumSet where
  node : Node
  threshold : Threshold
  nodes : List Node
  inner_sets : List InnerTree

/-- QuorumSet.size: `len(self.nodes) + len(_flatten(self.inner_sets))`. -/
def QuorumSet.size (qs : QuorumSet) : ℕ :=
  qs.nodes.length + (flattenL qs.inner_sets).length

/-- QuorumSet.minimum_quorum: `ceil(sz * t)` when the threshold is a float
in (0, 1], else `ceil(sz * (t / 100.0))`. -/
def QuorumSet.minimum_quorum (qs : QuorumSet) : ℤ :=
  if qs.threshold.isFloat = true ∧ 0 < qs.threshold.val ∧ qs.threshold.val ≤ 1 then
    ⌈(qs.size : ℚ) * qs.threshold.val⌉
  else
    ⌈(qs.size : ℚ) * (qs.threshold.val / 100)⌉

/-- Modelled from the spec: "normalising threshold to a fraction" - a float
already in (0,1] is the fraction itself, otherwise the threshold is a
percentile and is divided by 100. -/
def Threshold.fraction (t : Threshold) : ℚ :=
  if t.isFloat = true ∧ 0 < t.val ∧ t.val ≤ 1 then t.val else t.val / 100

/-- Membership of node v in one element of `inner_sets` as QuorumSet.weight
tests it: for a list element, `v in inner_set` compares v against the
direct members (name equality for node members, always false for nested
lists); for a non-list element, `v == inner_set` is name equality. -/
def innerSetContainsPy (v : Node) : InnerTree → Bool
  | .branch l => l.any (fun e =>
      match e with
      | .leaf n => n.name == v.name
      | .branch _ => false)
  | .leaf n => n.name == v.name

/-- QuorumSet.weight: count of top-level slices containing v divided by
`len(self.nodes) + len(self.inner_sets)`. The source's next test
`if self == v:` compares the QuorumSet object itself against v; for every
Node argument Python evaluates that comparison to False (Node.__eq__
compares v.name, a string, against the QuorumSet object), so the branch
is never taken and is omitted here. -/
def QuorumSet.weight (qs : QuorumSet) (v : Node) : ℚ :=
  let count := qs.nodes.countP (fun n => n.name == v.name)
      + qs.inner_sets.countP (fun t => innerSetContainsPy v t)
  let total_slices := qs.nodes.length + qs.inner_sets.length
  if total_slices = 0 then 0 else (count : ℚ) / (total_slices : ℚ)

/-- Modelled from the spec: "# top-level slices containing v" - the number
of validator entries plus inner sets that contain v. -/
def topLevelSlicesContaining (qs : QuorumSet) (v : Node) : ℕ :=
  qs.nodes.countP (fun n => n.name == v.name)
    + qs.inner_sets.countP (fun t => innerSetContainsPy v t)

/-- The round-advancement test of Node.check_update_nomination_round: the
round is incremented exactly when `Globals.simulation_time >
self.last_nomination_start_time + self.nomination_round` (the source also
refreshes the priority list there, which does not affect the round). -/
def check_update_nomination_round (simulation_time last_nomination_start_time : ℚ)
    (nomination_round : ℕ) : ℕ :=
  if last_nomination_start_time + (nomination_round : ℚ) < simulation_time then
    nomination_round + 1
  else
    nomination_round

/-- Node.MAX_SLOT_TXS. -/
def MAX_SLOT_TXS : ℕ := 200

/-- The merge-and-cap step shared by Node.prepare_nomination_msg and
Node.process_received_message: combine the current nomination list with
the incoming Value; if the merged transaction count exceeds MAX_SLOT_TXS,
keep the first MAX_SLOT_TXS transactions sorted by ascending hash. -/
def mergeWithCap (current : List Value) (incoming : Value) : Value :=
  if MAX_SLOT_TXS < ((Value.combine (current ++ [incoming])).transactions.sort (· ≤ ·)).length then
    { transactions :=
        (((Value.combine (current ++ [incoming])).transactions.sort (· ≤ ·)).take MAX_SLOT_TXS).toFinset,
      state := State.init }
  else
    Value.combine (current ++ [incoming])

/-- SCPBallot: counter plus value. -/
structure SCPBallot where
  counter : ℕ
  value : Value
deriving DecidableEq

/-- SCPPrepare envelope: ballot plus aCounter/cCounter/hCounter. -/
structure SCPPrepare where
  ballot : SCPBallot
  aCounter : ℕ
  cCounter : ℕ
  hCounter : ℕ
deriving DecidableEq

/-- SCPCommit envelope: ballot plus preparedCounter. -/
structure SCPCommit where
  ballot : SCPBallot
  preparedCounter : ℕ
deriving DecidableEq

/-- SCPExternalize envelope: ballot, hCounter, timestamp. -/
structure SCPExternalize where
  ballot : SCPBallot
  hCounter : ℕ
  timestamp : ℚ
deriving DecidableEq

/-- A nomination statement_counter entry: the source stores
`{"voted": {node_name: 1, ...}, "accepted": {node_name: 1, ...}}`;
only key membership is ever read, so the entry is the two name sets. -/
structure NomEntry where
  voted : List String
  accepted : List String
deriving DecidableEq

/-- A ballot_statement_counter / commit_ballot_statement_counter entry:
sets of Node objects per statement kind. -/
structure BallotEntry where
  voted : List Node
  accepted : List Node
  confirmed : List Node
  aborted : List Node
deriving DecidableEq

/-- The per-node mutable state of Node.py that the modelled operations
read or write. `committed_ballots` is initialised empty and never
assigned anywhere in the source, so it is omitted. The nomination
broadcast flags, storage, and tx_queue are untouched by the modelled
operations and likewise omitted. -/
structure NodeState where
  me : Node
  quorum_set : QuorumSet
  slot : ℕ
  ledger : List (ℕ × SCPExternalize)
  nomination_voted : List Value
  nomination_accepted : List Value
  nomination_confirmed : List Value
  statement_counter : List (Finset ℕ × NomEntry)
  balloting_voted : List (Finset ℕ × SCPBallot)
  balloting_accepted : List (Finset ℕ × SCPBallot)
  balloting_confirmed : List (Finset ℕ × SCPBallot)
  balloting_aborted : List (Finset ℕ × SCPBallot)
  ballot_statement_counter : List (Value × BallotEntry)
  prepared_ballots : List (Value × SCPPrepare)
  ballot_prepare_broadcast_flags : List SCPPrepare
  received_prepare_broadcast_msgs : List (String × List SCPPrepare)
  commit_ballot_voted : List (Finset ℕ × SCPBallot)
  commit_ballot_accepted : List (Finset ℕ × SCPBallot)
  commit_ballot_confirmed : List (Finset ℕ × SCPBallot)
  commit_ballot_statement_counter : List (Value × BallotEntry)
  commit_ballot_broadcast_flags : List SCPCommit
  received_commit_ballot_broadcast_msgs : List (String × List SCPCommit)
  externalize_broadcast_flags : List (ℕ × SCPExternalize)
  externalized_slot_counter : List SCPExternalize
  peer_externalised_statements : List (String × List (ℕ × SCPExternalize))
  mempool : List ℕ
  finalised_transactions : Finset ℕ
  seen_finalised_ballots : List (ℕ × Value)
  priority_list : List Node
  nomination_round : ℕ
  last_nomination_start_time : ℚ

/-- A NodeState with every container empty, as after Node.__init__. -/
def emptyState (me : Node) (qs : QuorumSet) : NodeState :=
  { me := me
    quorum_set := qs
    slot := 1
    ledger := []
    nomination_voted := []
    nomination_accepted := []
    nomination_confirmed := []
    statement_counter := []
    balloting_voted := []
    balloting_accepted := []
    balloting_confirmed := []
    balloting_aborted := []
    ballot_statement_counter := []
    prepared_ballots := []
    ballot_prepare_broadcast_flags := []
    received_prepare_broadcast_msgs := []
    commit_ballot_voted := []
    commit_ballot_accepted := []
    commit_ballot_confirmed := []
    commit_ballot_statement_counter := []
    commit_ballot_broadcast_flags := []
    received_commit_ballot_broadcast_msgs := []
    externalize_broadcast_flags := []
    externalized_slot_counter := []
    peer_externalised_statements := []
    mempool := []
    finalised_transactions := ∅
    seen_finalised_ballots := []
    priority_list := []
    nomination_round := 1
    last_nomination_start_time := 0 }

/-- `any(tx.hash in finalized_tx_ids for tx in value.transactions)`:
whether the value shares at least one transaction with the given hash set. -/
def Value.sharesTxWith (v : Value) (ids : Finset ℕ) : Bool :=
  decide (∃ t ∈ v.transactions, t ∈ ids)

/-- Node.reset_nomination_state: clear the three nomination lists and set
the nomination round back to 1. -/
def reset_nomination_state (s : NodeState) : NodeState :=
  { s with
    nomination_voted := []
    nomination_accepted := []
    nomination_confirmed := []
    nomination_round := 1 }

/-- Node.reset_commit_phase_state: drop every commit-phase statement
counter entry, state entry, broadcast flag and received message whose
value contains any transaction of the finalized ballot. -/
def reset_commit_phase_state (finalized_ballot : SCPBallot) (s : NodeState) : NodeState :=
  { s with
    commit_ballot_statement_counter :=
      s.commit_ballot_statement_counter.filter
        (fun kv => !(kv.1.sharesTxWith finalized_ballot.value.transactions))
    commit_ballot_voted :=
      s.commit_ballot_voted.filter
        (fun kv => !(kv.2.value.sharesTxWith finalized_ballot.value.transactions))
    commit_ballot_accepted :=
      s.commit_ballot_accepted.filter
        (fun kv => !(kv.2.value.sharesTxWith finalized_ballot.value.transactions))
    commit_ballot_confirmed :=
      s.commit_ballot_confirmed.filter
        (fun kv => !(kv.2.value.sharesTxWith finalized_ballot.value.transactions))
    commit_ballot_broadcast_flags :=
      s.commit_ballot_broadcast_flags.filter
        (fun m => !(m.ballot.value.sharesTxWith finalized_ballot.value.transactions))
    received_commit_ballot_broadcast_msgs :=
      s.received_commit_ballot_broadcast_msgs.map
        (fun kv => (kv.1, kv.2.filter
          (fun m => !(m.ballot.value.sharesTxWith finalized_ballot.value.transactions)))) }

/-- Node.reset_prepare_ballot_phase: drop every prepare-phase entry whose
value hash equals the finalized ballot's value hash (and only those). -/
def reset_prepare_ballot_phase (finalized_ballot : SCPBallot) (s : NodeState) : NodeState :=
  { s with
    balloting_voted :=
      s.balloting_voted.filter
        (fun kv => !(decide (kv.2.value.hash = finalized_ballot.value.hash)))
    balloting_accepted :=
      s.balloting_accepted.filter
        (fun kv => !(decide (kv.2.value.hash = finalized_ballot.value.hash)))
    balloting_confirmed :=
      s.balloting_confirmed.filter
        (fun kv => !(decide (kv.2.value.hash = finalized_ballot.value.hash)))
    balloting_aborted :=
      s.balloting_aborted.filter
        (fun kv => !(decide (kv.2.value.hash = finalized_ballot.value.hash)))
    ballot_statement_counter :=
      s.ballot_statement_counter.filter
        (fun kv => !(decide (kv.1.hash = finalized_ballot.value.hash)))
    prepared_ballots :=
      s.prepared_ballots.filter
        (fun kv => !(decide (kv.1.hash = finalized_ballot.value.hash)))
    ballot_prepare_broadcast_flags :=
      s.ballot_prepare_broadcast_flags.filter
        (fun m => !(decide (m.ballot.value.hash = finalized_ballot.value.hash)))
    received_prepare_broadcast_msgs :=
      s.received_prepare_broadcast_msgs.map
        (fun kv => (kv.1, kv.2.filter
          (fun m => !(decide (m.ballot.value.hash = finalized_ballot.value.hash))))) }

/-- Node.collect_finalised_transactions: no-op while `slot == 1`; otherwise
walk the externalized_slot_counter and, for each not-yet-seen
(counter, value) ballot key, record the key and add the ballot's
transaction hashes to finalised_transactions. Returns the updated
(finalised_transactions, _seen_finalised_ballots) pair. -/
def collect_finalised_transactions (s : NodeState) : Finset ℕ × List (ℕ × Value) :=
  if s.slot = 1 then (s.finalised_transactions, s.seen_finalised_ballots)
  else
    s.externalized_slot_counter.foldl
      (fun acc ext =>
        if (ext.ballot.counter, ext.ballot.value) ∈ acc.2 then acc
        else (acc.1 ∪ ext.ballot.value.transactions, (ext.ballot.counter, ext.ballot.value) :: acc.2))
      (s.finalised_transactions, s.seen_finalised_ballots)

/-- Node.remove_txs_from_mempool: refresh finalised_transactions via
collect_finalised_transactions, then remove every finalised transaction
and every transaction of the given value from the mempool. The source
iterates Python sets (unspecified order) and removes the first list
occurrence of each; the model erases in ascending hash order, which
agrees whenever mempool entries are distinct by hash. -/
def remove_txs_from_mempool (value : Value) (s : NodeState) : NodeState :=
  let fs := collect_finalised_transactions s
  let m1 := (fs.1.sort (· ≤ ·)).foldl (fun m tx => m.erase tx) s.mempool
  let m2 := (value.transactions.sort (· ≤ ·)).foldl (fun m tx => m.erase tx) m1
  { s with
    finalised_transactions := fs.1
    seen_finalised_ballots := fs.2
    mempool := m2 }

/-- Modelled from the spec: the Ledger contract
`add_slot(slot, externalize_msg)` of the append-only slot-to-Externalize
mapping (Ledger.py is not among the sources); the mapping is an
association list and add_slot prepends the new entry. -/
def Ledger.add_slot (l : List (ℕ × SCPExternalize)) (slot : ℕ) (msg : SCPExternalize) :
    List (ℕ × SCPExternalize) :=
  (slot, msg) :: l

/-- Modelled from the spec: `slot in self.ledger.slots`, key membership in
the ledger mapping. -/
def Ledger.containsSlot (l : List (ℕ × SCPExternalize)) (slot : ℕ) : Bool :=
  l.any (fun kv => kv.1 == slot)

/-- Node.retrieve_confirmed_commit_ballot draws a uniformly random entry of
`commit_ballot_state['confirmed']`; the model is parameterised by the
draw k and picks entry k mod length (none when the dict is empty, in
which case prepare_Externalize_msg has already returned). -/
def pickConfirmedCommit (s : NodeState) (k : ℕ) : Option SCPBallot :=
  (s.commit_ballot_confirmed.get? (k % s.commit_ballot_confirmed.length)).map Prod.snd

/-- The body of Node.prepare_Externalize_msg once a confirmed commit ballot
fb has been retrieved: build the SCPExternalize message, store it in the
ledger, the externalize broadcast flags and the externalized slot
counter, fully reset nomination, clear the priority list, stamp
last_nomination_start_time, reset the commit and prepare phases against
the finalized ballot, remove the finalized transactions from the
mempool, and advance the slot. -/
def externalizeWith (fb : SCPBallot) (now : ℚ) (s : NodeState) : NodeState :=
  let ext : SCPExternalize := { ballot := fb, hCounter := fb.counter, timestamp := now }
  let s1 := { s with
    ledger := Ledger.add_slot s.ledger s.slot ext
    externalize_broadcast_flags := (s.slot, ext) :: s.externalize_broadcast_flags
    externalized_slot_counter := ext :: s.externalized_slot_counter }
  let s2 := reset_nomination_state s1
  let s3 := { s2 with priority_list := [], last_nomination_start_time := now }
  let s4 := reset_commit_phase_state ext.ballot s3
  let s5 := reset_prepare_ballot_phase ext.ballot s4
  let s6 := remove_txs_from_mempool fb.value s5
  { s6 with slot := s6.slot + 1, nomination_round := 1 }

/-- Node.prepare_Externalize_msg: return unchanged when no commit ballot is
confirmed, otherwise externalize the drawn confirmed commit ballot. -/
def prepare_Externalize_msg (k : ℕ) (now : ℚ) (s : NodeState) : NodeState :=
  match pickConfirmedCommit s k with
  | none => s
  | some fb => externalizeWith fb now s

/-- `self.peer_externalised_statements.setdefault(name, set()).add(entry)`;
the per-peer set is modelled as a list. -/
def addPeerStatement (m : List (String × List (ℕ × SCPExternalize))) (name : String)
    (entry : ℕ × SCPExternalize) : List (String × List (ℕ × SCPExternalize)) :=
  if m.any (fun kv => kv.1 == name) then
    m.map (fun kv => if kv.1 == name then (kv.1, entry :: kv.2) else kv)
  else
    (name, [entry]) :: m

/-- Node.process_externalize_msg: discard the message when the slot is
already in the ledger or differs from the node's current slot; otherwise
adopt the externalized value (ledger, peer statements, flags, counter),
reset nomination, reset the commit and prepare phases against the
message's ballot, remove its transactions from the mempool and advance
the slot. -/
def process_externalize_msg (slot_number : ℕ) (message : SCPExternalize)
    (sending_node : Node) (now : ℚ) (s : NodeState) : NodeState :=
  if Ledger.containsSlot s.ledger slot_number = true then s
  else if slot_number ≠ s.slot then s
  else
    let s1 := { s with
      ledger := Ledger.add_slot s.ledger slot_number message
      peer_externalised_statements :=
        addPeerStatement s.peer_externalised_statements sending_node.name (slot_number, message)
      externalize_broadcast_flags := (slot_number, message) :: s.externalize_broadcast_flags
      externalized_slot_counter := message :: s.externalized_slot_counter
      nomination_round := 1 }
    let s2 := reset_nomination_state s1
    let s3 := { s2 with last_nomination_start_time := now }
    let s4 := reset_commit_phase_state message.ballot s3
    let s5 := reset_prepare_ballot_phase message.ballot s4
    let s6 := remove_txs_from_mempool message.ballot.value s5
    { s6 with slot := s6.slot + 1 }

/-- Python `val in list` on a list of Values: any element equal to val
under Value.__eq__. -/
def listContainsVal (l : List Value) (v : Value) : Bool :=
  l.any (fun w => decide (Value.eqPy w v))

/-- Deduplication by object id, as in `if id(p) not in seen_ids`. -/
def dedupeByIdAux : List ℕ → List Node → List Node
  | _, [] => []
  | seen, n :: rest =>
    if n.oid ∈ seen then dedupeByIdAux seen rest
    else n :: dedupeByIdAux (n.oid :: seen) rest

/-- Deduplicate a peer list by Python object identity. -/
def dedupeById (l : List Node) : List Node := dedupeByIdAux [] l

/-- Dictionary lookup in the nomination statement_counter, keyed by value
hash. -/
def lookupCounter (h : Finset ℕ) (sc : List (Finset ℕ × NomEntry)) : Option NomEntry :=
  (sc.find? (fun kv => decide (kv.1 = h))).map Prod.snd

/-- Node.check_Quorum_threshold: false unless the node itself has val in
its nomination voted or accepted list; otherwise count, over the
deduplicated union of validators, flattened inner sets and self, the
peers that are self or whose name appears in the voted or accepted part
of the statement-counter entry for val.hash (an absent entry defaults to
empty), and compare against minimum_quorum. -/
def NodeState.check_Quorum_threshold (s : NodeState) (val : Value) : Bool :=
  if !(listContainsVal s.nomination_voted val) && !(listContainsVal s.nomination_accepted val) then
    false
  else
    let all_peers := s.quorum_set.nodes ++ flattenL s.quorum_set.inner_sets
    let unique := dedupeById (all_peers ++ [s.me])
    let entry := (lookupCounter val.hash s.statement_counter).getD ⟨[], []⟩
    let signed := (unique.filter (fun p =>
      p.oid == s.me.oid || entry.voted.contains p.name || entry.accepted.contains p.name)).length
    decide (s.quorum_set.minimum_quorum ≤ (signed : ℤ))

/-- The signed-count loop of Node.check_Blocking_threshold: starts at 1
(self has signed); for each non-self node it reads
`self.statement_counter[val.hash]` - a KeyError (modelled as
Except.error) when no entry exists - and counts the node once, by name,
if its name appears in the entry's voted or accepted sets. -/
def loopSignedAux (sc : List (Finset ℕ × NomEntry)) (meOid : ℕ) (h : Finset ℕ) :
    ℕ → List String → List Node → Except Unit ℕ
  | signed, _, [] => Except.ok signed
  | signed, seen, nd :: rest =>
    if nd.oid = meOid then loopSignedAux sc meOid h signed seen rest
    else
      match lookupCounter h sc with
      | none => Except.error ()
      | some entry =>
        if (entry.voted.contains nd.name || entry.accepted.contains nd.name)
            && !(seen.contains nd.name) then
          loopSignedAux sc meOid h (signed + 1) (nd.name :: seen) rest
        else
          loopSignedAux sc meOid h signed seen rest

/-- The counting loop of QuorumSet.check_inner_set_blocking_threshold:
count the peers of the flattened slice, other than the caller and
deduplicated by name, whose name appears in the entry's voted or
accepted sets. -/
def innerCountAux (entry : NomEntry) (callerOid : ℕ) : List String → List Node → ℕ
  | _, [] => 0
  | seen, p :: rest =>
    if p.oid = callerOid || seen.contains p.name then innerCountAux entry callerOid seen rest
    else if entry.voted.contains p.name || entry.accepted.contains p.name then
      innerCountAux entry callerOid (p.name :: seen) rest + 1
    else
      innerCountAux entry callerOid seen rest

/-- QuorumSet.check_inner_set_blocking_threshold: reads
`calling_node.statement_counter[val.hash]` unconditionally - a KeyError
(Except.error) when absent - then counts signed peers of the slice. -/
def check_inner_set_blocking_threshold (sc : List (Finset ℕ × NomEntry)) (calling_node : Node)
    (val : Value) (quorum : List InnerTree) : Except Unit ℕ :=
  match lookupCounter val.hash sc with
  | none => Except.error ()
  | some entry => Except.ok (innerCountAux entry calling_node.oid [] (flattenL quorum))

/-- The inner-set loop of Node.check_Blocking_threshold: one
check_inner_set_blocking_threshold call per element of the flattened
inner sets, summing the counts. -/
def loopInnerAux (sc : List (Finset ℕ × NomEntry)) (me : Node) (val : Value) :
    List Node → Except Unit ℕ
  | [] => Except.ok 0
  | nd :: rest => do
    let c ← check_inner_set_blocking_threshold sc me val [InnerTree.leaf nd]
    let r ← loopInnerAux sc me val rest
    Except.ok (c + r)

/-- Node.check_Blocking_threshold: false unless val is in the node's
nomination voted or accepted list; false when the deduplicated quorum is
empty; otherwise compare the signed count (self plus named peers, which
reads the statement-counter entry and can raise KeyError) plus the
inner-set contributions against n - minimum_quorum. -/
def NodeState.check_Blocking_threshold (s : NodeState) (val : Value) : Except Unit Bool :=
  if !(listContainsVal s.nomination_voted val) && !(listContainsVal s.nomination_accepted val) then
    Except.ok false
  else
    let inner_flat := flattenL s.quorum_set.inner_sets
    let unique := dedupeById (s.quorum_set.nodes ++ inner_flat)
    let n := unique.length
    let k := s.quorum_set.minimum_quorum
    if n = 0 then Except.ok false
    else do
      let signed ← loopSignedAux s.statement_counter s.me.oid val.hash 1 [] unique
      let inner ← loopInnerAux s.statement_counter s.me val inner_flat
      Except.ok (decide ((n : ℤ) - k < ((signed + inner : ℕ) : ℤ)))

/-- The properties that the Finalisation-purge claim implies for the state
after externalising ballot fb, restricted to what the code establishes:
every commit-phase record whose value shares a transaction with fb.value
is gone, and every prepare-phase record whose value hash equals
fb.value's hash is gone. -/
def PurgeSpec (s : NodeState) (fb : SCPBallot) : Prop :=
  (∀ kv ∈ s.commit_ballot_voted, kv.2.value.sharesTxWith fb.value.transactions = false) ∧
  (∀ kv ∈ s.commit_ballot_accepted, kv.2.value.sharesTxWith fb.value.transactions = false) ∧
  (∀ kv ∈ s.commit_ballot_confirmed, kv.2.value.sharesTxWith fb.value.transactions = false) ∧
  (∀ kv ∈ s.commit_ballot_statement_counter, kv.1.sharesTxWith fb.value.transactions = false) ∧
  (∀ m ∈ s.commit_ballot_broadcast_flags, m.ballot.value.sharesTxWith fb.value.transactions = false) ∧
  (∀ kv ∈ s.balloting_voted, kv.2.value.hash ≠ fb.value.hash) ∧
  (∀ kv ∈ s.balloting_accepted, kv.2.value.hash ≠ fb.value.hash) ∧
  (∀ kv ∈ s.balloting_confirmed, kv.2.value.hash ≠ fb.value.hash) ∧
  (∀ kv ∈ s.balloting_aborted, kv.2.value.hash ≠ fb.value.hash) ∧
  (∀ kv ∈ s.ballot_statement_counter, kv.1.hash ≠ fb.value.hash) ∧
  (∀ kv ∈ s.prepared_ballots, kv.1.hash ≠ fb.value.hash) ∧
  (∀ m ∈ s.ballot_prepare_broadcast_flags, m.ballot.value.hash ≠ fb.value.hash)

/-- Fixture: a two-node quorum configuration owned by node A. -/
def fixQuorum : QuorumSet :=
  { node := { name := "A", oid := 0 }
    threshold := { val := 55, isFloat := false }
    nodes := [{ name := "B", oid := 1 }]
    inner_sets := [] }

/-- Fixture: the finalized value, transactions with hashes 1 and 2. -/
def c1vFin : Value := { transactions := {1, 2}, state := State.init }

/-- Fixture: a value sharing transaction 1 with c1vFin but not equal to
it (it also holds transaction 3). -/
def c1wOther : Value := { transactions := {1, 3}, state := State.init }

/-- Fixture: the confirmed commit ballot that gets externalised. -/
def c1ballot : SCPBallot := { counter := 1, value := c1vFin }

/-- Fixture: a node state in which c1ballot is a confirmed commit ballot
and a prepare-phase ballot on c1wOther is still voted. -/
def c1state : NodeState :=
  { emptyState { name := "A", oid := 0 } fixQuorum with
    commit_ballot_confirmed := [(c1vFin.hash, c1ballot)]
    balloting_voted := [(c1wOther.hash, { counter := 1, value := c1wOther })] }

/-- Fixture: an externalize message for c1ballot. -/
def c1msg : SCPExternalize := { ballot := c1ballot, hCounter := 1, timestamp := 5 }

/-- Fixture: the peer the externalize message comes from. -/
def c1sender : Node := { name := "B", oid := 1 }

/-- Fixture: a fresh node state at slot 1 with an empty ledger. -/
def c1pstate : NodeState := emptyState { name := "A", oid := 0 } fixQuorum

/-- Fixture: a value the node has voted for in nomination. -/
def c2val : Value := { transactions := {1}, state := State.init }

/-- Fixture: a node state whose nomination voted list holds c2val while
the statement counter has no entry at all. -/
def c2state : NodeState :=
  { emptyState { name := "A", oid := 0 } fixQuorum with
    nomination_voted := [c2val] }

/-- Fixture: a quorum set of size 5 with the default 55 percent threshold. -/
def c4qs : QuorumSet :=
  { node := { name := "N", oid := 0 }
    threshold := { val := 55, isFloat := false }
    nodes := [{ name := "a", oid := 1 }, { name := "b", oid := 2 }, { name := "c", oid := 3 },
              { name := "d", oid := 4 }, { name := "e", oid := 5 }]
    inner_sets := [] }

/-- Fixture: a Value holding 201 distinct transactions. -/
def c6val : Value := { transactions := Finset.range 201, state := State.init }

/-- Fixture: a node state at slot 2 with an empty ledger. -/
def c7state : NodeState :=
  { emptyState { name := "A", oid := 0 } fixQuorum with slot := 2 }

/-- C8 counterexample: two Values with the same transaction set but
different state tags are not equal under Value.__eq__, so equality does
not hold merely because the transaction sets agree. -/
theorem claim_C8_counterexample :
    ¬ Value.eqPy { transactions := {1}, state := State.init }
        { transactions := {1}, state := State.nominated } ∧
    ({ transactions := {1}, state := State.init } : Value).transactions =
      ({ transactions := {1}, state := State.nominated } : Value).transactions := by
  decide

/-- C8 amended: Value.__eq__ holds exactly when both the transaction sets
and the state tags agree (the hash conjunct adds nothing, being
determined by the transaction set). -/
theorem claim_C8_value_eq (v w : Value) :
    Value.eqPy v w ↔ (v.transactions = w.transactions ∧ v.state = w.state) := by
  unfold Value.eqPy Value.hash
  tauto

/-- C9 counterexample: Value.combine builds its result with the default
state State.init, so combine([v]) is not equal (under Value.__eq__) to a
v whose state tag is not init. -/
theorem claim_C9_counterexample :
    ¬ Value.eqPy (Value.combine [{ transactions := {1}, state := State.nominated }])
      { transactions := {1}, state := State.nominated } := by
  decide

/-- C9 amended: combine([v]) always carries the same transaction set as v
(for every v, whatever its state tag), and is equal to v under
Value.__eq__ whenever v's state tag is init. -/
theorem claim_C9_combine (v : Value) :
    (Value.combine [v]).transactions = v.transactions ∧
    (v.state = State.init → Value.eqPy (Value.combine [v]) v) := by
  have ht : (Value.combine [v]).transactions = v.transactions := by
    simp [Value.combine]
  exact ⟨ht, fun h => ⟨ht, h.symm, ht⟩⟩

/-- C9 witness: the amended claim instantiated at the singleton init-state
value holding transaction 1, the inner hypothesis discharged there. -/
theorem claim_C9_combine_witness :
    (Value.combine [{ transactions := {1}, state := State.init }]).transactions =
      ({ transactions := {1}, state := State.init } : Value).transactions ∧
    Value.eqPy (Value.combine [{ transactions := {1}, state := State.init }])
      { transactions := {1}, state := State.init } :=
  ⟨(claim_C9_combine { transactions := {1}, state := State.init }).1,
   (claim_C9_combine { transactions := {1}, state := State.init }).2 rfl⟩

/-- C10: node equality and hashing are determined by the name alone - a
node compares equal to another node exactly when the names agree, equal
to a bare string exactly when its name is that string, its hash is the
hash of its name, and membership of a node in a node list is decided
purely by name. -/
theorem claim_C10_name_identity (n m : Node) (s : String) (pyhash : String → ℤ)
    (l : List Node) :
    (n.eqPy (PyNodeArg.nd m) = true ↔ n.name = m.name) ∧
    (n.eqPy (PyNodeArg.str s) = true ↔ n.name = s) ∧
    Node.hashPy pyhash n = pyhash n.name ∧
    (l.any (fun p => p.eqPy (PyNodeArg.nd n)) = true ↔ n.name ∈ l.map Node.name) := by
  refine ⟨by simp [Node.eqPy], by simp [Node.eqPy], rfl, ?_⟩
  simp only [Node.eqPy, List.any_eq_true, beq_iff_eq, List.mem_map]

/-- C4: minimum_quorum is the ceiling of size times the threshold
normalised to a fraction, and evaluates to 3 for size 5 with the default
55 percent threshold. -/
theorem claim_C4_minimum_quorum :
    (∀ qs : QuorumSet, qs.minimum_quorum = ⌈(qs.size : ℚ) * qs.threshold.fraction⌉) ∧
    c4qs.minimum_quorum = 3 := by
  constructor
  · intro qs
    by_cases hc : qs.threshold.isFloat = true ∧ 0 < qs.threshold.val ∧ qs.threshold.val ≤ 1 <;>
      simp [QuorumSet.minimum_quorum, Threshold.fraction, hc]
  · have h1 : ¬(c4qs.threshold.isFloat = true ∧ 0 < c4qs.threshold.val ∧
        c4qs.threshold.val ≤ 1) := by
      simp [c4qs]
    rw [QuorumSet.minimum_quorum, if_neg h1]
    have h2 : c4qs.size = 5 := rfl
    have h3 : c4qs.threshold.val = 55 := rfl
    rw [h2, h3, Int.ceil_eq_iff]
    norm_num

/-- C5 (code bug): with nomination starting at t = 0 and round 1, the
round-advancement check already moves to round 2 at t = 1.5 (which is
at most 2.0, where the claim still requires round 1), and at t = 5.0 it
does not hold at round 3 but advances further - the implemented
condition `t > start + round` makes every round last 1 second instead of
1 + round seconds. -/
theorem claim_C5_round_schedule :
    check_update_nomination_round (3 / 2) 0 1 = 2 ∧ ((3 / 2 : ℚ) ≤ 2) ∧
    check_update_nomination_round 5 0 3 = 4 := by
  refine ⟨?_, by norm_num, ?_⟩
  · rw [check_update_nomination_round, if_pos (by norm_num)]
  · rw [check_update_nomination_round, if_pos (by norm_num)]

/-- C3 counterexample: for the quorum set owned by node A with single
validator B, the weight of the owner A is 0, not 1.0 - the source's
owner test compares the QuorumSet object with the node and never fires. -/
theorem claim_C3_counterexample :
    fixQuorum.node = { name := "A", oid := 0 } ∧
    fixQuorum.weight { name := "A", oid := 0 } = 0 ∧ (0 : ℚ) ≠ 1 := by
  refine ⟨rfl, ?_, by norm_num⟩
  simp [QuorumSet.weight, fixQuorum]

/-- C3 amended: for every node v - the owner included, which gets no
special treatment - weight(v) is the number of top-level slices
containing v divided by the number of validators plus inner sets,
whenever that total is nonzero. -/
theorem claim_C3_weight_formula (qs : QuorumSet) (v : Node)
    (h : qs.nodes.length + qs.inner_sets.length ≠ 0) :
    qs.weight v = (topLevelSlicesContaining qs v : ℚ) /
      ((qs.nodes.length + qs.inner_sets.length : ℕ) : ℚ) := by
  unfold QuorumSet.weight topLevelSlicesContaining
  simp [h]

/-- C3 witness: the amended weight formula instantiated at the fixture
quorum set and its validator B. -/
theorem claim_C3_weight_formula_witness :
    fixQuorum.weight { name := "B", oid := 1 } =
      (topLevelSlicesContaining fixQuorum { name := "B", oid := 1 } : ℚ) /
      ((fixQuorum.nodes.length + fixQuorum.inner_sets.length : ℕ) : ℚ) :=
  claim_C3_weight_formula fixQuorum { name := "B", oid := 1 } (by decide)

/-- C6: whenever the merged nomination value exceeds MAX_SLOT_TXS = 200
transactions, the stored Value holds exactly 200 transactions, namely the
first 200 of the merge sorted by ascending transaction hash. -/
theorem claim_C6_cap (current : List Value) (incoming : Value)
    (h : MAX_SLOT_TXS < (Value.combine (current ++ [incoming])).transactions.card) :
    (mergeWithCap current incoming).transactions.card = MAX_SLOT_TXS ∧
    (mergeWithCap current incoming).transactions =
      (((Value.combine (current ++ [incoming])).transactions.sort (· ≤ ·)).take
        MAX_SLOT_TXS).toFinset := by
  have hlen : ((Value.combine (current ++ [incoming])).transactions.sort (· ≤ ·)).length
      = (Value.combine (current ++ [incoming])).transactions.card :=
    Finset.length_sort _
  have hcond : MAX_SLOT_TXS <
      ((Value.combine (current ++ [incoming])).transactions.sort (· ≤ ·)).length := by
    rw [hlen]
    exact h
  have hnd : (((Value.combine (current ++ [incoming])).transactions.sort (· ≤ ·)).take
      MAX_SLOT_TXS).Nodup :=
    (Finset.sort_nodup _ _).sublist (List.take_sublist _ _)
  constructor
  · rw [mergeWithCap, if_pos hcond]
    show (((Value.combine (current ++ [incoming])).transactions.sort (· ≤ ·)).take
      MAX_SLOT_TXS).toFinset.card = MAX_SLOT_TXS
    rw [List.toFinset_card_of_nodup hnd, List.length_take, hlen]
    exact Nat.min_eq_left h.le
  · rw [mergeWithCap, if_pos hcond]

/-- C6 witness: merging a single incoming Value of 201 transactions from
an empty current list leaves exactly 200 transactions, the 200 smallest
hashes. -/
theorem claim_C6_cap_witness :
    (mergeWithCap [] c6val).transactions.card = MAX_SLOT_TXS ∧
    (mergeWithCap [] c6val).transactions =
      (((Value.combine ([] ++ [c6val])).transactions.sort (· ≤ ·)).take
        MAX_SLOT_TXS).toFinset :=
  claim_C6_cap [] c6val (by
    show MAX_SLOT_TXS < (Value.combine ([] ++ [c6val])).transactions.card
    simp [Value.combine, c6val, MAX_SLOT_TXS])

/-- Helper: the fixture quorum set (one validator, 55 percent threshold)
has minimum_quorum 1. -/
theorem fixQuorum_min_quorum : fixQuorum.minimum_quorum = 1 := by
  have h1 : ¬(fixQuorum.threshold.isFloat = true ∧ 0 < fixQuorum.threshold.val ∧
      fixQuorum.threshold.val ≤ 1) := by
    simp [fixQuorum]
  rw [QuorumSet.minimum_quorum, if_neg h1]
  have h2 : fixQuorum.size = 1 := rfl
  have h3 : fixQuorum.threshold.val = 55 := rfl
  rw [h2, h3, Int.ceil_eq_iff]
  norm_num

/-- C2 counterexample: for a value the node has voted for in nomination
but that has no statement-counter entry, check_Blocking_threshold raises
KeyError (Except.error) instead of returning false - and
check_Quorum_threshold even returns true (self alone meets the
1-of-1 minimum quorum), not false. -/
theorem claim_C2_counterexample :
    c2state.check_Blocking_threshold c2val = Except.error () ∧
    c2state.check_Quorum_threshold c2val = true := by
  constructor
  · rfl
  · have hguard : (!(listContainsVal c2state.nomination_voted c2val)
        && !(listContainsVal c2state.nomination_accepted c2val)) = false := by decide
    have hq : c2state.quorum_set = fixQuorum := rfl
    rw [NodeState.check_Quorum_threshold, hguard]
    simp only [Bool.false_eq_true, if_false]
    rw [hq, fixQuorum_min_quorum]
    rfl

/-- C2 amended: both threshold checks return false, without raising, for
any val absent from the node's own nomination voted and accepted lists;
when val is present there but has no statement-counter entry,
check_Quorum_threshold still returns a boolean (from an empty default
entry, possibly true) while check_Blocking_threshold raises KeyError as
soon as the quorum has a non-self member or a nonempty inner set. -/
theorem claim_C2_threshold_guard (s : NodeState) (val : Value)
    (h1 : listContainsVal s.nomination_voted val = false)
    (h2 : listContainsVal s.nomination_accepted val = false) :
    s.check_Quorum_threshold val = false ∧
    s.check_Blocking_threshold val = Except.ok false := by
  constructor
  · rw [NodeState.check_Quorum_threshold, h1, h2]
    simp
  · rw [NodeState.check_Blocking_threshold, h1, h2]
    simp

/-- C2 witness: the amended claim instantiated at a fresh node state and
the fixture value. -/
theorem claim_C2_threshold_guard_witness :
    (emptyState { name := "A", oid := 0 } fixQuorum).check_Quorum_threshold c2val = false ∧
    (emptyState { name := "A", oid := 0 } fixQuorum).check_Blocking_threshold c2val
      = Except.ok false :=
  claim_C2_threshold_guard (emptyState { name := "A", oid := 0 } fixQuorum) c2val
    (by decide) (by decide)

/-- Helper: resetting the commit phase and then the prepare phase against
ballot fb establishes PurgeSpec, whatever the starting state. -/
theorem purge_core (fb : SCPBallot) (t : NodeState) :
    PurgeSpec (reset_prepare_ballot_phase fb (reset_commit_phase_state fb t)) fb := by
  refine ⟨?_, ?_, ?_, ?_, ?_, ?_, ?_, ?_, ?_, ?_, ?_, ?_⟩ <;>
    (intro x hx
     simp only [reset_prepare_ballot_phase, reset_commit_phase_state, List.mem_filter] at hx
     simpa using hx.2)

/-- C1 counterexample: externalising the ballot on value with hashes 1 and
2 leaves the prepare-phase voted ballot on the value with hashes 1 and 3
in place, although it shares transaction 1 with the finalized value. -/
theorem claim_C1_counterexample :
    (∃ m ∈ (prepare_Externalize_msg 0 5 c1state).externalized_slot_counter,
      m.ballot.value = c1vFin) ∧
    ∃ kv ∈ (prepare_Externalize_msg 0 5 c1state).balloting_voted,
      kv.2.value.sharesTxWith c1vFin.transactions = true := by
  decide

/-- C1 amended: after prepare_Externalize_msg externalises ballot fb (and
after process_externalize_msg adopts a message), every commit-phase
state entry, statement-counter entry and broadcast flag whose value
shares a transaction with fb.value is purged, while prepare-phase
entries (balloting state, statement counters, prepared ballots,
broadcast flags) are purged exactly for fb.value's own hash - an entry
merely sharing some transactions survives. -/
theorem claim_C1_purge :
    (∀ (s : NodeState) (k : ℕ) (now : ℚ) (fb : SCPBallot),
      pickConfirmedCommit s k = some fb →
      PurgeSpec (prepare_Externalize_msg k now s) fb) ∧
    (∀ (s : NodeState) (slot_number : ℕ) (message : SCPExternalize)
        (sending_node : Node) (now : ℚ),
      Ledger.containsSlot s.ledger slot_number = false → slot_number = s.slot →
      PurgeSpec (process_externalize_msg slot_number message sending_node now s)
        message.ballot) := by
  constructor
  · intro s k now fb h
    unfold prepare_Externalize_msg
    rw [h]
    exact purge_core fb _
  · intro s slot_number message sending_node now h1 h2
    subst h2
    unfold process_externalize_msg
    rw [h1]
    rw [if_neg (by simp), if_neg (fun hh => hh rfl)]
    exact purge_core message.ballot _

/-- C1 witness: the amended purge property instantiated at the fixture
state (for prepare_Externalize_msg) and at a fresh state adopting the
fixture externalize message (for process_externalize_msg). -/
theorem claim_C1_purge_witness :
    PurgeSpec (prepare_Externalize_msg 0 5 c1state) c1ballot ∧
    PurgeSpec (process_externalize_msg 1 c1msg c1sender 5 c1pstate) c1msg.ballot :=
  ⟨claim_C1_purge.1 c1state 0 5 c1ballot (by decide),
   claim_C1_purge.2 c1pstate 1 c1msg c1sender 5 (by decide) (by decide)⟩

/-- C7: process_externalize_msg leaves the node state - ledger and every
phase structure - unchanged when the slot is already in the ledger or
differs from the node's current slot. -/
theorem claim_C7_discard (slot_number : ℕ) (message : SCPExternalize)
    (sending_node : Node) (now : ℚ) (s : NodeState)
    (h : Ledger.containsSlot s.ledger slot_number = true ∨ slot_number ≠ s.slot) :
    process_externalize_msg slot_number message sending_node now s = s := by
  unfold process_externalize_msg
  rcases h with h | h
  · rw [if_pos h]
  · by_cases hc : Ledger.containsSlot s.ledger slot_number = true
    · rw [if_pos hc]
    · rw [if_neg hc, if_pos h]

/-- C7 witness: a node at slot 2 with an empty ledger discards an
externalize message for slot 1. -/
theorem claim_C7_discard_witness :
    process_externalize_msg 1 c1msg c1sender 5 c7state = c7state :=
  claim_C7_discard 1 c1msg c1sender 5 c7state (Or.inr (by decide))
